import Mathlib

/-!
Verification of the lets-encrypt-automator repository.

The repository contains five near-identical JavaScript implementations of a
certificate-renewal tool: a CLI script, a server-wrapped variant and a module
variant (all in index.js, all using the cPanel UAPI install endpoint), a
browser-automation variant (class LetsCertificateRenewer in index.js), and a
plain-HTTP class variant (class CertificateRenewer in src/unnamed/part_000).
The definitions below are shallow embeddings of the functions these claims
cite, translated directly from the JavaScript source.  File systems are
modelled as association lists from path to content; random key generation and
network results are passed in as explicit parameters.
-/

namespace LEAutomator

/-- File system model: an association list from path to file content.
New writes are consed on the front, so lookup sees the latest write. -/
abbrev KeyFS := List (String × String)

/-- Whether sub occurs as a contiguous segment of s. -/
def listIsSegmentOf (sub : List Char) : List Char → Bool
  | [] => sub.isEmpty
  | c :: rest => sub.isPrefixOf (c :: rest) || listIsSegmentOf sub rest

/-- Model of the JavaScript expression s.includes(sub). -/
def stringIncludes (s sub : String) : Bool :=
  listIsSegmentOf sub.toList s.toList

/- ------------------------------------------------------------------ -/
/- C1: LetsCertificateRenewer.checkCertificateExpiry (index.js 564-584) -/
/- ------------------------------------------------------------------ -/

/-- State of the certificate file read by checkCertificateExpiry: the file can
be absent (readFile throws), present but unparseable (certificateFromPem
throws), or parsed with a notAfter timestamp in milliseconds. -/
inductive CertState
  | absent
  | unparseable
  | valid (notAfterMs : Int)
deriving DecidableEq

/-- Math.floor of (expiryDate - now) / 86400000 from index.js:574; floor
division on exact millisecond timestamps. -/
def daysUntilExpiry (notAfterMs nowMs : Int) : Int :=
  (notAfterMs - nowMs).fdiv 86400000

/-- LetsCertificateRenewer.checkCertificateExpiry, index.js 564-584: any read
or parse failure is caught and yields true; otherwise the certificate is
renewed when daysUntilExpiry is strictly below 30. -/
def checkCertificateExpiry (cert : CertState) (nowMs : Int) : Bool :=
  match cert with
  | CertState.absent => true
  | CertState.unparseable => true
  | CertState.valid notAfterMs => daysUntilExpiry notAfterMs nowMs < 30

/- ------------------------------------------------------------------ -/
/- C2: PEM chain splitting                                             -/
/- ------------------------------------------------------------------ -/

/-- The 27 characters of the literal PEM begin delimiter. -/
def BEGINCERT : List Char :=
  ['-', '-', '-', '-', '-', 'B', 'E', 'G', 'I', 'N', ' ',
   'C', 'E', 'R', 'T', 'I', 'F', 'I', 'C', 'A', 'T', 'E',
   '-', '-', '-', '-', '-']

/-- The 25 characters of the literal PEM end delimiter. -/
def ENDCERT : List Char :=
  ['-', '-', '-', '-', '-', 'E', 'N', 'D', ' ',
   'C', 'E', 'R', 'T', 'I', 'F', 'I', 'C', 'A', 'T', 'E',
   '-', '-', '-', '-', '-']

/-- One attempt of the regex
BEGIN delimiter, then one or more non-dash characters, then END delimiter
at the start of s.  The greedy character class cannot cross a dash, so the
regex matches here exactly when the maximal non-dash run after the begin
delimiter is nonempty and immediately followed by the end delimiter. -/
def tryMatchCert (s : List Char) : Option (List Char × List Char) :=
  if BEGINCERT.isPrefixOf s then
    let r1 := s.drop BEGINCERT.length
    let body := r1.takeWhile (fun c => c != '-')
    let r2 := r1.dropWhile (fun c => c != '-')
    if body.isEmpty then none
    else if ENDCERT.isPrefixOf r2 then
      some (BEGINCERT ++ body ++ ENDCERT, r2.drop ENDCERT.length)
    else none
  else none

/-- Fuelled global scan: at each position try the certificate pattern; on a
match, emit it and continue after it; otherwise advance one character.  This
is the leftmost, non-overlapping semantics of String.prototype.match with the
global flag. -/
def scanPemFuel : Nat → List Char → List (List Char)
  | 0, _ => []
  | _ + 1, [] => []
  | fuel + 1, c :: rest =>
    match tryMatchCert (c :: rest) with
    | some (m, r) => m :: scanPemFuel fuel r
    | none => scanPemFuel fuel rest

/-- Model of fullchain.match with the certificate regex and global flag
(index.js 112-113, 243, 720): the list of matched certificate blocks in
order. -/
def scanPem (s : List Char) : List (List Char) :=
  scanPemFuel s.length s

/-- A PEM certificate block with the given body between the delimiters. -/
def mkCertBlock (body : List Char) : List Char :=
  BEGINCERT ++ body ++ ENDCERT

/-- Concatenation of PEM certificate blocks joined by newlines, as a CA
returns a fullchain. -/
def joinBlocks : List (List Char) → List Char
  | [] => []
  | [b] => mkCertBlock b
  | b :: bs => mkCertBlock b ++ '\n' :: joinBlocks bs

/-- Leaf and chain extraction of the index.js variants: the first regex match
is the leaf, the remaining matches joined with newlines are the CA bundle
(index.js 112-114, 243-245, 720-722).  A null match result makes the
destructuring or .shift() throw, modelled as none. -/
def splitFullchainStr (fullchain : String) : Option (String × String) :=
  match scanPem fullchain.toList with
  | [] => none
  | leaf :: rest => some (String.mk leaf, String.intercalate "\n" (rest.map String.mk))

/-- Split a character list into lines at newline characters, like the
JavaScript split on a newline. -/
def splitLinesAux (cur : List Char) : List Char → List (List Char)
  | [] => [cur.reverse]
  | c :: rest =>
    if c = '\n' then cur.reverse :: splitLinesAux [] rest
    else splitLinesAux (c :: cur) rest

/-- The loop of part_000 requestCertificate lines 185-194: accumulate every
line after the first line containing the END delimiter. -/
def extractChainLoop : List (List Char) → Bool → List Char → List Char
  | [], _, acc => acc
  | line :: rest, inChain, acc =>
    if listIsSegmentOf ENDCERT line then
      extractChainLoop rest true (if inChain then acc ++ line ++ ['\n'] else acc)
    else if inChain then extractChainLoop rest true (acc ++ line ++ ['\n'])
    else extractChainLoop rest inChain acc

/-- part_000 chain extraction (lines 181-194): split the certificate text into
lines and keep everything after the first END delimiter line. -/
def extractChain (cert : String) : String :=
  String.mk (extractChainLoop (splitLinesAux [] cert.toList) false [])

/-- part_000 requestCertificate lines 172-198: the entire text returned by
client.auto is written to certificate.crt, the CSR private key to
private.key, and the extracted chain (when nonempty) to chain.crt. -/
def part000SaveCertFiles (certDir cert key : String) (fs : KeyFS) : KeyFS :=
  let fs1 := (certDir ++ "/certificate.crt", cert) :: fs
  let fs2 := (certDir ++ "/private.key", key) :: fs1
  let chain := extractChain cert
  if chain = "" then fs2 else (certDir ++ "/chain.crt", chain) :: fs2

/- ------------------------------------------------------------------ -/
/- C4: key load-or-create                                              -/
/- ------------------------------------------------------------------ -/

/-- index.js 64-70 and 81-87 (also 202-224, 682-702): read the key file; when
the read fails, generate a fresh key (passed here as the fresh parameter) and
write it before returning. -/
def loadOrCreateKey (p fresh : String) (fs : KeyFS) : String × KeyFS :=
  match fs.lookup p with
  | some k => (k, fs)
  | none => (fresh, (p, fresh) :: fs)

/-- part_000 loadOrCreateAccountKey (lines 67-82): same load-or-create, except
that in dry-run mode the freshly generated key is NOT written to disk. -/
def loadOrCreateAccountKey (dryRun : Bool) (certDir fresh : String) (fs : KeyFS) :
    String × KeyFS :=
  match fs.lookup (certDir ++ "/account.key") with
  | some k => (k, fs)
  | none =>
    (fresh, if dryRun then fs else (certDir ++ "/account.key", fresh) :: fs)

/- ------------------------------------------------------------------ -/
/- C3: install step                                                    -/
/- ------------------------------------------------------------------ -/

/-- An HTTP response as seen by part_000 makeHttpRequest. -/
structure HttpResponse where
  statusCode : Nat
  body : String
deriving DecidableEq

/-- Result of the part_000 upload try/catch: either the upload was accepted,
or the catch block logged the manual fallback naming the three bundle file
paths. -/
inductive UploadOutcome
  | uploaded
  | manualFallback (certPath keyPath chainPath : String)
deriving DecidableEq

/-- part_000 uploadCertificateViaCPanel lines 325-340: the POST response is a
success only when the status code is 200 and the body contains the substring
success; any other response raises inside the try and the catch logs the
fallback message with the bundle file locations, swallowing the error. -/
def uploadCertificateViaCPanel (resp : HttpResponse) (certPath keyPath chainPath : String) :
    UploadOutcome :=
  if resp.statusCode == 200 && stringIncludes resp.body "success" then
    UploadOutcome.uploaded
  else
    UploadOutcome.manualFallback certPath keyPath chainPath

/-- index.js 125-127 (and 256-258): after the UAPI call, a parsed status field
other than 1 throws; there is no fallback path in these variants. -/
def installSslUapi (status : Int) : Except String Unit :=
  if status != 1 then Except.error "cPanel rejected the certificate"
  else Except.ok ()

/-- Exit code of a top-level run: the catch handler calls process.exit(1). -/
def exitCodeOf (r : Except String Unit) : Nat :=
  match r with
  | Except.ok _ => 0
  | Except.error _ => 1

/- ------------------------------------------------------------------ -/
/- C5/C6: orchestration runs                                           -/
/- ------------------------------------------------------------------ -/

/-- Observable steps of a renewal run, in the order the source performs
them. -/
inductive RunEvent
  | validateConfig
  | checkExpiry
  | logSkipped
  | ensureCertDir
  | loadAccountKey
  | initAcmeClient
  | loadDomainKey
  | requestCert
  | writeCertFiles
  | splitChain
  | cpanelLogin
  | cpanelInstall
  | logFallback
  | logCompleted
deriving DecidableEq

/-- part_000 renewCertificate (lines 370-410), with its callees inlined in
source order.  Booleans record the configuration checks and the result of
checkCertificateExpiry; the issue, login and resp parameters carry the
results of client.auto, loginToCPanel and the install POST.  Returns the
propagated result, the event trace, and the final file system. -/
def part000Renew (dryRun pwSet domOk needsRen : Bool) (certDir freshAK domKey : String)
    (issue : Except String String) (login : Except String Unit) (resp : HttpResponse)
    (fs : KeyFS) : Except String Unit × List RunEvent × KeyFS :=
  if !pwSet && !dryRun then
    (Except.error "cPanel password is required", [RunEvent.validateConfig], fs)
  else if !domOk then
    (Except.error "Domain is required", [RunEvent.validateConfig], fs)
  else if !needsRen && !dryRun then
    (Except.ok (), [RunEvent.validateConfig, RunEvent.checkExpiry, RunEvent.logSkipped], fs)
  else
    let ak := loadOrCreateAccountKey dryRun certDir freshAK fs
    if dryRun then
      (Except.ok (),
       [RunEvent.validateConfig, RunEvent.checkExpiry, RunEvent.ensureCertDir,
        RunEvent.loadAccountKey, RunEvent.initAcmeClient, RunEvent.logCompleted], ak.2)
    else
      match issue with
      | Except.error e =>
        (Except.error e,
         [RunEvent.validateConfig, RunEvent.checkExpiry, RunEvent.ensureCertDir,
          RunEvent.loadAccountKey, RunEvent.initAcmeClient, RunEvent.requestCert], ak.2)
      | Except.ok cert =>
        let fs2 := part000SaveCertFiles certDir cert domKey ak.2
        match login with
        | Except.error e =>
          (Except.error e,
           [RunEvent.validateConfig, RunEvent.checkExpiry, RunEvent.ensureCertDir,
            RunEvent.loadAccountKey, RunEvent.initAcmeClient, RunEvent.requestCert,
            RunEvent.writeCertFiles, RunEvent.cpanelLogin], fs2)
        | Except.ok _ =>
          match uploadCertificateViaCPanel resp (certDir ++ "/certificate.crt")
              (certDir ++ "/private.key") (certDir ++ "/chain.crt") with
          | UploadOutcome.uploaded =>
            (Except.ok (),
             [RunEvent.validateConfig, RunEvent.checkExpiry, RunEvent.ensureCertDir,
              RunEvent.loadAccountKey, RunEvent.initAcmeClient, RunEvent.requestCert,
              RunEvent.writeCertFiles, RunEvent.cpanelLogin, RunEvent.cpanelInstall,
              RunEvent.logCompleted], fs2)
          | UploadOutcome.manualFallback _ _ _ =>
            (Except.ok (),
             [RunEvent.validateConfig, RunEvent.checkExpiry, RunEvent.ensureCertDir,
              RunEvent.loadAccountKey, RunEvent.initAcmeClient, RunEvent.requestCert,
              RunEvent.writeCertFiles, RunEvent.cpanelLogin, RunEvent.cpanelInstall,
              RunEvent.logFallback, RunEvent.logCompleted], fs2)

/-- index.js renew (lines 199-262, the server variant): account key, domain
key, CSR, order, split, UAPI install.  There is no expiry check anywhere in
this function. -/
def serverRenew (domain freshAK freshDK : String) (issue : Except String String)
    (installStatus : Int) (fs : KeyFS) : Except String Unit × List RunEvent × KeyFS :=
  let ak := loadOrCreateKey "data/account.key" freshAK fs
  let dk := loadOrCreateKey ("data/" ++ domain ++ ".key") freshDK ak.2
  match issue with
  | Except.error e =>
    (Except.error e,
     [RunEvent.loadAccountKey, RunEvent.loadDomainKey, RunEvent.requestCert], dk.2)
  | Except.ok fullchain =>
    match splitFullchainStr fullchain with
    | none =>
      (Except.error "TypeError",
       [RunEvent.loadAccountKey, RunEvent.loadDomainKey, RunEvent.requestCert,
        RunEvent.splitChain], dk.2)
    | some _ =>
      match installSslUapi installStatus with
      | Except.error e =>
        (Except.error e,
         [RunEvent.loadAccountKey, RunEvent.loadDomainKey, RunEvent.requestCert,
          RunEvent.splitChain, RunEvent.cpanelInstall], dk.2)
      | Except.ok _ =>
        (Except.ok (),
         [RunEvent.loadAccountKey, RunEvent.loadDomainKey, RunEvent.requestCert,
          RunEvent.splitChain, RunEvent.cpanelInstall], dk.2)

/-- index.js main routine (lines 59-135, the CLI variant): keys are written to
the store, the issued fullchain is held only in memory, the UAPI install
failure throws and the catch exits with code 1.  Returns the exit code and
the final file system. -/
def cliMain (dry : Bool) (domain freshAK freshDK : String) (issue : Except String String)
    (installStatus : Int) (fs : KeyFS) : Nat × KeyFS :=
  let ak := loadOrCreateKey "data/account.key" freshAK fs
  let dk := loadOrCreateKey ("data/" ++ domain ++ ".key") freshDK ak.2
  match issue with
  | Except.error _ => (1, dk.2)
  | Except.ok fullchain =>
    if dry then (0, dk.2)
    else
      match splitFullchainStr fullchain with
      | none => (1, dk.2)
      | some _ =>
        match installSslUapi installStatus with
        | Except.error _ => (1, dk.2)
        | Except.ok _ => (0, dk.2)

/- ------------------------------------------------------------------ -/
/- C7: challenge retraction                                            -/
/- ------------------------------------------------------------------ -/

/-- index.js challengeRemove (lines 53-56): fs.rm with force true, which
succeeds whether or not the file exists.  Returns the new file system and the
error surfaced to the caller (always none for a missing file thanks to
force). -/
def challengeRemove (fs : KeyFS) (token : String) : KeyFS × Option String :=
  (fs.filter (fun e => e.1 != token), none)

/-- Result of the part_000 cleanup closure: the file system, whether the
warning branch was taken, and the error propagated to the caller. -/
structure CleanupOutcome where
  fs : KeyFS
  warned : Bool
  fatal : Option String
deriving DecidableEq

/-- The cleanup closure returned by part_000 handleHttpChallenge (lines
125-134): try to unlink the challenge file; any failure, whether the
environmental failure passed in failEnv or the missing-file error, is caught
and logged as a warning, and nothing propagates. -/
def handleHttpChallengeCleanup (failEnv : Option String) (fs : KeyFS) (token : String) :
    CleanupOutcome :=
  match failEnv with
  | some _ => { fs := fs, warned := true, fatal := none }
  | none =>
    if (fs.lookup token).isSome then
      { fs := fs.filter (fun e => e.1 != token), warned := false, fatal := none }
    else
      { fs := fs, warned := true, fatal := none }

/- ------------------------------------------------------------------ -/
/- C8: HTTP trigger handler                                            -/
/- ------------------------------------------------------------------ -/

/-- An incoming HTTP request as consulted by the server handler. -/
structure TriggerRequest where
  method : String
  url : String
  authorization : Option String
deriving DecidableEq

/-- What the handler decides to do with a request. -/
inductive ServerAction
  | health
  | startRenew
  | unauthorized
  | notFound
deriving DecidableEq

/-- index.js http.createServer handler (lines 267-297): the decision is a
function of the request alone; an authorized POST to the renew path always
awaits a fresh renew() call.  No in-flight state exists anywhere in the
source. -/
def serverHandler (secret : String) (req : TriggerRequest) : ServerAction :=
  if req.method == "GET" && req.url == "/health" then ServerAction.health
  else if req.method == "POST" && req.url == "/certificate/renew" then
    if req.authorization == some ("Bearer " ++ secret) then ServerAction.startRenew
    else ServerAction.unauthorized
  else ServerAction.notFound

/- ------------------------------------------------------------------ -/
/- C9: CSR construction                                                -/
/- ------------------------------------------------------------------ -/

/-- The options object passed to acme.crypto.createCsr. -/
structure CsrOptions where
  commonName : String
  altNames : List String
deriving DecidableEq

/-- index.js 90-93 (also 227-230 and 705-708): the CSR names the configured
domain as common name and exactly the domain and its www subdomain as
alternative names. -/
def csrOptions (domain : String) : CsrOptions :=
  { commonName := domain, altNames := [domain, "www." ++ domain] }

/- ------------------------------------------------------------------ -/
/- C10: UAPI install request construction                              -/
/- ------------------------------------------------------------------ -/

/-- Characters the urlencoded serializer leaves unchanged: ASCII
alphanumerics and asterisk, dash, dot, underscore. -/
def isUrlSafeChar (c : Char) : Bool :=
  (65 ≤ c.toNat && c.toNat ≤ 90) || (97 ≤ c.toNat && c.toNat ≤ 122) ||
  (48 ≤ c.toNat && c.toNat ≤ 57) ||
  c == '*' || c == '-' || c == '.' || c == '_'

/-- Uppercase hexadecimal digit for a value below 16. -/
def hexDigit (n : Nat) : Char :=
  if n < 10 then Char.ofNat (48 + n) else Char.ofNat (55 + n)

/-- Value of a hexadecimal digit character. -/
def hexVal (c : Char) : Option Nat :=
  if 48 ≤ c.toNat && c.toNat ≤ 57 then some (c.toNat - 48)
  else if 65 ≤ c.toNat && c.toNat ≤ 70 then some (c.toNat - 55)
  else if 97 ≤ c.toNat && c.toNat ≤ 102 then some (c.toNat - 87)
  else none

/-- One character of the application/x-www-form-urlencoded serialization used
by URLSearchParams.toString, modelled for the single-byte (ASCII) range that
covers PEM data, keys and domain names. -/
def percentEncodeChar (c : Char) : List Char :=
  if c = ' ' then ['+']
  else if isUrlSafeChar c then [c]
  else ['%', hexDigit (c.toNat / 16 % 16), hexDigit (c.toNat % 16)]

/-- The urlencoded serialization of a character list. -/
def urlencode : List Char → List Char
  | [] => []
  | c :: rest => percentEncodeChar c ++ urlencode rest

/-- The urlencoded serialization of a string. -/
def urlencodeStr (s : String) : String :=
  String.mk (urlencode s.toList)

/-- Decoder for the urlencoded form: plus becomes space, a percent escape is
read back as a byte, anything else passes through. -/
def percentDecode : List Char → List Char
  | [] => []
  | '+' :: rest => ' ' :: percentDecode rest
  | '%' :: h :: l :: rest2 =>
    match hexVal h, hexVal l with
    | some hv, some lv => Char.ofNat (16 * hv + lv) :: percentDecode rest2
    | _, _ => '%' :: percentDecode (h :: l :: rest2)
  | c :: rest => c :: percentDecode rest

/-- URLSearchParams.toString: pairs serialized in insertion order, joined with
ampersands. -/
def serializeParams : List (String × String) → String
  | [] => ""
  | [p] => urlencodeStr p.1 ++ "=" ++ urlencodeStr p.2
  | p :: ps => urlencodeStr p.1 ++ "=" ++ urlencodeStr p.2 ++ "&" ++ serializeParams ps

/-- The fetch call performed by the UAPI variants: a URL, one authorization
header, and no request body. -/
structure FetchRequest where
  url : String
  authorization : String
  body : Option String
deriving DecidableEq

/-- index.js 117-123 (also 248-253, 725-736): the install request puts domain,
leaf certificate, domain private key and CA bundle into the query string of
the UAPI install url; fetch is called with headers only, no body. -/
def installSslRequest (host domain certPem domainKey cabundle user token : String) :
    FetchRequest :=
  { url := "https://" ++ host ++ ":2083/execute/SSL/install_ssl?" ++
      serializeParams
        [("domain", domain), ("cert", certPem), ("key", domainKey), ("cabundle", cabundle)],
    authorization := "cpanel " ++ user ++ ":" ++ token,
    body := none }

/- ------------------------------------------------------------------ -/
/- Concrete demonstration values used by counterexamples               -/
/- ------------------------------------------------------------------ -/

/-- A two-block demonstration fullchain: leaf then one intermediate, joined by
a newline, as a CA returns it. -/
def demoLeaf : String :=
  "-----BEGIN CERTIFICATE-----\nAAA\n-----END CERTIFICATE-----"

/-- The intermediate block of the demonstration fullchain. -/
def demoIntermediate : String :=
  "-----BEGIN CERTIFICATE-----\nBBB\n-----END CERTIFICATE-----"

/-- The demonstration fullchain text. -/
def demoFullchain : String :=
  demoLeaf ++ "\n" ++ demoIntermediate

end LEAutomator

namespace LEAutomator

/-! ## Generic helper lemmas -/

theorem scanPemFuel_nil (f : Nat) : scanPemFuel f [] = [] := by
  cases f <;> rfl

theorem tryMatchCert_nil : tryMatchCert [] = none := rfl

theorem tryMatchCert_newline (rest : List Char) : tryMatchCert ('\n' :: rest) = none := rfl

theorem isPrefixOf_self_append (l t : List Char) : l.isPrefixOf (l ++ t) = true := by
  induction l with
  | nil => simp only [List.nil_append, List.isPrefixOf]
  | cons c cs ih =>
    simp only [List.cons_append, List.isPrefixOf, beq_self_eq_true, Bool.true_and]
    exact ih

theorem length_le_of_isPrefixOfEq {l : List Char} :
    ∀ {s : List Char}, l.isPrefixOf s = true → l.length ≤ s.length := by
  induction l with
  | nil => intro s _; simp
  | cons c cs ih =>
    intro s h
    cases s with
    | nil => simp [List.isPrefixOf] at h
    | cons d ds =>
      simp only [List.isPrefixOf, Bool.and_eq_true, beq_iff_eq] at h
      have := ih h.2
      simp only [List.length_cons]
      omega

theorem dropWhileLength_le (p : Char → Bool) (l : List Char) :
    (l.dropWhile p).length ≤ l.length := by
  induction l with
  | nil => simp
  | cons c cs ih =>
    by_cases h : p c
    · simp only [List.dropWhile_cons, h, if_true]
      simp only [List.length_cons]
      omega
    · simp [List.dropWhile_cons, h]

theorem tryMatchCert_length_lt {s m r : List Char}
    (h : tryMatchCert s = some (m, r)) : r.length < s.length := by
  simp only [tryMatchCert] at h
  split at h
  case isTrue hpre =>
    split at h
    · exact absurd h (by simp)
    · split at h
      case isTrue hend =>
        simp only [Option.some.injEq, Prod.mk.injEq] at h
        have hr := h.2
        have h1 : BEGINCERT.length ≤ s.length := length_le_of_isPrefixOfEq hpre
        have h2 : ((s.drop BEGINCERT.length).dropWhile (fun c => c != '-')).length ≤
            s.length - BEGINCERT.length := by
          have := dropWhileLength_le (fun c => c != '-') (s.drop BEGINCERT.length)
          simpa [List.length_drop] using this
        have h3 : r.length =
            ((s.drop BEGINCERT.length).dropWhile (fun c => c != '-')).length -
              ENDCERT.length := by
          rw [← hr]
          simp [List.length_drop]
        have hb : BEGINCERT.length = 27 := rfl
        have he : ENDCERT.length = 25 := rfl
        omega
      case isFalse => exact absurd h (by simp)
  case isFalse => exact absurd h (by simp)

theorem scanPemFuel_congr :
    ∀ (f1 f2 : Nat) (s : List Char), s.length ≤ f1 → s.length ≤ f2 →
      scanPemFuel f1 s = scanPemFuel f2 s := by
  intro f1
  induction f1 with
  | zero =>
    intro f2 s h1 _
    have : s = [] := List.eq_nil_of_length_eq_zero (Nat.le_zero.mp h1)
    subst this
    rw [scanPemFuel_nil, scanPemFuel_nil]
  | succ g ih =>
    intro f2 s h1 h2
    cases s with
    | nil => rw [scanPemFuel_nil, scanPemFuel_nil]
    | cons c rest =>
      cases f2 with
      | zero => simp at h2
      | succ g2 =>
        cases h : tryMatchCert (c :: rest) with
        | none =>
          simp only [scanPemFuel, h]
          exact ih g2 rest (by simp at h1; omega) (by simp at h2; omega)
        | some mr =>
          obtain ⟨m, r⟩ := mr
          have hlt := tryMatchCert_length_lt h
          simp only [scanPemFuel, h]
          rw [ih g2 r (by simp at h1 hlt; omega) (by simp at h2 hlt; omega)]

theorem scanPem_match_some {s m r : List Char} (h : tryMatchCert s = some (m, r)) :
    scanPem s = m :: scanPem r := by
  cases s with
  | nil => rw [tryMatchCert_nil] at h; exact absurd h (by simp)
  | cons c rest =>
    have hlt := tryMatchCert_length_lt h
    unfold scanPem
    simp only [List.length_cons, scanPemFuel, h]
    rw [scanPemFuel_congr rest.length r.length r (by simp at hlt; omega) (Nat.le_refl _)]

theorem scanPem_match_none {c : Char} {rest : List Char}
    (h : tryMatchCert (c :: rest) = none) :
    scanPem (c :: rest) = scanPem rest := by
  unfold scanPem
  simp only [List.length_cons, scanPemFuel, h]

theorem scanPem_newline (rest : List Char) :
    scanPem ('\n' :: rest) = scanPem rest :=
  scanPem_match_none (tryMatchCert_newline rest)

theorem takeWhile_nonDash_append (body t' : List Char) (hnd : ∀ c ∈ body, c ≠ '-') :
    (body ++ '-' :: t').takeWhile (fun c => c != '-') = body ∧
    (body ++ '-' :: t').dropWhile (fun c => c != '-') = '-' :: t' := by
  induction body with
  | nil =>
    constructor
    · simp [List.takeWhile_cons]
    · simp [List.dropWhile_cons]
  | cons c cs ih =>
    have hc : (c != '-') = true := by
      simp only [bne_iff_ne]
      exact hnd c (by simp)
    have := ih (fun d hd => hnd d (by simp [hd]))
    constructor
    · simp only [List.cons_append, List.takeWhile_cons, hc, if_true, this.1]
    · simp only [List.cons_append, List.dropWhile_cons, hc, if_true, this.2]

theorem tryMatchCert_block (body rest : List Char) (hne : body ≠ [])
    (hnd : ∀ c ∈ body, c ≠ '-') :
    tryMatchCert (BEGINCERT ++ body ++ ENDCERT ++ rest) =
      some (BEGINCERT ++ body ++ ENDCERT, rest) := by
  have htail : ENDCERT ++ rest = '-' :: (ENDCERT.tail ++ rest) := rfl
  have htw := takeWhile_nonDash_append body (ENDCERT.tail ++ rest) hnd
  have htw1 : (body ++ (ENDCERT ++ rest)).takeWhile (fun c => c != '-') = body := by
    rw [htail]; exact htw.1
  have htw2 : (body ++ (ENDCERT ++ rest)).dropWhile (fun c => c != '-') = ENDCERT ++ rest := by
    rw [htail]; exact htw.2
  have hpre : BEGINCERT.isPrefixOf (BEGINCERT ++ (body ++ (ENDCERT ++ rest))) = true :=
    isPrefixOf_self_append _ _
  have hdrop : (BEGINCERT ++ (body ++ (ENDCERT ++ rest))).drop BEGINCERT.length =
      body ++ (ENDCERT ++ rest) := List.drop_left _ _
  have hepre : ENDCERT.isPrefixOf (ENDCERT ++ rest) = true := isPrefixOf_self_append _ _
  have hedrop : (ENDCERT ++ rest).drop ENDCERT.length = rest := List.drop_left _ _
  have hbody_ne : body.isEmpty = false := by
    cases body with
    | nil => exact absurd rfl hne
    | cons c cs => rfl
  simp only [List.append_assoc]
  simp only [tryMatchCert, hpre, hdrop, htw1, htw2, hbody_ne, hepre, hedrop, if_true,
    Bool.false_eq_true, if_false]
  rw [List.append_assoc]

theorem scanPem_block (body rest : List Char) (hne : body ≠ [])
    (hnd : ∀ c ∈ body, c ≠ '-') :
    scanPem (BEGINCERT ++ body ++ ENDCERT ++ rest) =
      (BEGINCERT ++ body ++ ENDCERT) :: scanPem rest :=
  scanPem_match_some (tryMatchCert_block body rest hne hnd)

theorem scanPem_joinBlocks :
    ∀ (blocks : List (List Char)),
      (∀ b ∈ blocks, b ≠ [] ∧ ∀ c ∈ b, c ≠ '-') →
      scanPem (joinBlocks blocks) = blocks.map mkCertBlock := by
  intro blocks
  induction blocks with
  | nil => intro _; rfl
  | cons b bs ih =>
    intro h
    have hb := h b (by simp)
    cases bs with
    | nil =>
      have : joinBlocks [b] = BEGINCERT ++ b ++ ENDCERT ++ [] := by
        simp [joinBlocks, mkCertBlock]
      rw [this, scanPem_block b [] hb.1 hb.2]
      rfl
    | cons b2 bs2 =>
      have hjoin : joinBlocks (b :: b2 :: bs2) =
          BEGINCERT ++ b ++ ENDCERT ++ ('\n' :: joinBlocks (b2 :: bs2)) := by
        simp [joinBlocks, mkCertBlock]
      rw [hjoin, scanPem_block b _ hb.1 hb.2, scanPem_newline]
      rw [ih (fun x hx => h x (by simp [hx]))]
      simp [mkCertBlock]

theorem filter_ne_of_lookup_none {fs : KeyFS} {tok : String} (h : fs.lookup tok = none) :
    fs.filter (fun e => e.1 != tok) = fs := by
  induction fs with
  | nil => rfl
  | cons e rest ih =>
    obtain ⟨k, v⟩ := e
    by_cases hk : (tok == k) = true
    · simp [List.lookup, hk] at h
    · have hk2 : (tok == k) = false := by
        cases hb : (tok == k) with
        | true => exact absurd hb hk
        | false => rfl
      simp only [List.lookup, hk2] at h
      have hne : (k != tok) = true := by
        simp only [bne_iff_ne]
        intro he
        apply hk
        simp [he]
      simp [List.filter, hne, ih h]

theorem string_append_right_ne (a b c : String) (h : b ≠ c) : a ++ b ≠ a ++ c := by
  obtain ⟨la⟩ := a
  obtain ⟨lb⟩ := b
  obtain ⟨lc⟩ := c
  intro he
  apply h
  have hd : la ++ lb = la ++ lc := congrArg String.data he
  have hbc : lb = lc := List.append_cancel_left hd
  rw [hbc]

theorem saveCertFiles_lookup (certDir cert key : String) (fs : KeyFS) :
    (part000SaveCertFiles certDir cert key fs).lookup (certDir ++ "/certificate.crt") =
      some cert ∧
    (part000SaveCertFiles certDir cert key fs).lookup (certDir ++ "/private.key") =
      some key := by
  have h12 : ((certDir ++ "/certificate.crt") == (certDir ++ "/private.key")) = false := by
    simp only [beq_eq_false_iff_ne]
    exact string_append_right_ne certDir _ _ (by decide)
  have h13 : ((certDir ++ "/certificate.crt") == (certDir ++ "/chain.crt")) = false := by
    simp only [beq_eq_false_iff_ne]
    exact string_append_right_ne certDir _ _ (by decide)
  have h23 : ((certDir ++ "/private.key") == (certDir ++ "/chain.crt")) = false := by
    simp only [beq_eq_false_iff_ne]
    exact string_append_right_ne certDir _ _ (by decide)
  simp only [part000SaveCertFiles]
  split
  · constructor
    · simp [List.lookup, h12]
    · simp [List.lookup]
  · constructor
    · simp [List.lookup, h12, h13]
    · simp [List.lookup, h23]

theorem part000Renew_take2 (dryRun pwSet domOk needsRen : Bool)
    (certDir freshAK domKey : String) (issue : Except String String)
    (login : Except String Unit) (resp : HttpResponse) (fs : KeyFS) :
    (part000Renew dryRun pwSet domOk needsRen certDir freshAK domKey issue login resp fs).2.1 =
      [RunEvent.validateConfig] ∨
    ((part000Renew dryRun pwSet domOk needsRen certDir freshAK domKey issue login resp
        fs).2.1).take 2 = [RunEvent.validateConfig, RunEvent.checkExpiry] := by
  unfold part000Renew
  split
  · exact Or.inl rfl
  split
  · exact Or.inl rfl
  split
  · exact Or.inr rfl
  split
  · exact Or.inr rfl
  cases issue with
  | error e => exact Or.inr rfl
  | ok cert =>
    cases login with
    | error e => exact Or.inr rfl
    | ok _ =>
      cases uploadCertificateViaCPanel resp (certDir ++ "/certificate.crt")
          (certDir ++ "/private.key") (certDir ++ "/chain.crt") <;> exact Or.inr rfl

theorem hexVal_hexDigit (n : Nat) (h : n < 16) : hexVal (hexDigit n) = some n := by
  interval_cases n <;> decide

theorem isUrlSafe_ne_special {c : Char} (h : isUrlSafeChar c = true) :
    c ≠ '+' ∧ c ≠ '%' := by
  constructor
  · rintro rfl; exact absurd h (by decide)
  · rintro rfl; exact absurd h (by decide)

theorem percentDecode_cons_other {c : Char} (rest : List Char) (h1 : c ≠ '+') (h2 : c ≠ '%') :
    percentDecode (c :: rest) = c :: percentDecode rest := by
  rw [percentDecode.eq_def]
  split
  · rename_i heq; exact absurd heq (by simp)
  · rename_i heq
    exact absurd (List.cons.inj heq).1 h1
  · rename_i heq
    exact absurd (List.cons.inj heq).1 h2
  · rename_i heq
    obtain ⟨hc, hr⟩ := List.cons.inj heq
    rw [hc, hr]

theorem percentDecode_escape {h l : Char} {hv lv : Nat} (rest : List Char)
    (hh : hexVal h = some hv) (hl : hexVal l = some lv) :
    percentDecode ('%' :: h :: l :: rest) = Char.ofNat (16 * hv + lv) :: percentDecode rest := by
  simp only [percentDecode, hh, hl]

theorem percentDecode_urlencode :
    ∀ (s : List Char), (∀ c ∈ s, c.toNat < 128) → percentDecode (urlencode s) = s := by
  intro s
  induction s with
  | nil => intro _; rfl
  | cons c rest ih =>
    intro h
    have hc : c.toNat < 128 := h c (by simp)
    have hrest := ih (fun d hd => h d (by simp [hd]))
    simp only [urlencode]
    by_cases hsp : c = ' '
    · subst hsp
      simp only [percentEncodeChar, if_pos rfl, List.cons_append, List.nil_append]
      rw [percentDecode.eq_def]
      simp [hrest]
    · by_cases hsafe : isUrlSafeChar c = true
      · have hne := isUrlSafe_ne_special hsafe
        simp only [percentEncodeChar, hsp, if_false, hsafe, if_true, List.cons_append,
          List.nil_append]
        rw [percentDecode_cons_other _ hne.1 hne.2, hrest]
      · have hsafe2 : isUrlSafeChar c = false := by
          cases hb : isUrlSafeChar c with
          | true => exact absurd hb hsafe
          | false => rfl
        simp only [percentEncodeChar, hsp, if_false, hsafe2, Bool.false_eq_true,
          List.cons_append, List.nil_append]
        have hhi : c.toNat / 16 % 16 < 16 := Nat.mod_lt _ (by omega)
        have hlo : c.toNat % 16 < 16 := Nat.mod_lt _ (by omega)
        rw [percentDecode_escape _ (hexVal_hexDigit _ hhi) (hexVal_hexDigit _ hlo), hrest]
        have harith : 16 * (c.toNat / 16 % 16) + c.toNat % 16 = c.toNat := by
          have h1 : c.toNat / 16 % 16 = c.toNat / 16 := by
            apply Nat.mod_eq_of_lt
            omega
          rw [h1]
          omega
        rw [harith, Char.ofNat_toNat]

end LEAutomator

namespace LEAutomator

/-! ## C1: renewal-need check -/

/-- C1 counterexample: at exactly 30 remaining days (notAfter minus now equal
to 30 times 86400000 ms) the forge-based check returns false, although the
remaining validity R satisfies R ≤ T for the fixed threshold T = 30, so the
claimed equivalence fails at this input. -/
theorem checkCertificateExpiry_boundary_cex :
    ¬ (checkCertificateExpiry (CertState.valid 2592000000) 0 = true ↔
        (CertState.valid 2592000000 = CertState.absent ∨
         CertState.valid 2592000000 = CertState.unparseable ∨
         daysUntilExpiry 2592000000 0 ≤ 30)) := by decide

/-- C1 amended: for the node-forge-based variant with its fixed threshold of
30 days, the check returns true exactly when the certificate is absent or
unparseable or the floored number of remaining days is STRICTLY below 30; the
decision is derived from the notAfter field. -/
theorem checkCertificateExpiry_iff (cert : CertState) (nowMs : Int) :
    checkCertificateExpiry cert nowMs = true ↔
      cert = CertState.absent ∨ cert = CertState.unparseable ∨
      ∃ na, cert = CertState.valid na ∧ daysUntilExpiry na nowMs < 30 := by
  cases cert with
  | absent => simp [checkCertificateExpiry]
  | unparseable => simp [checkCertificateExpiry]
  | valid na => simp [checkCertificateExpiry]

/-! ## C2: chain splitting -/

/-- C2 counterexample: on a two-block fullchain the part_000 variant stores
the ENTIRE fullchain as certificate.crt, so the saved leaf is not the first
block: leaf and chain are conflated in this cited variant. -/
theorem part000_leaf_conflation_cex :
    (part000SaveCertFiles "certs" demoFullchain "KEY" []).lookup "certs/certificate.crt" =
      some demoFullchain ∧
    demoFullchain ≠ demoLeaf ∧
    (part000SaveCertFiles "certs" demoFullchain "KEY" []).lookup "certs/certificate.crt" ≠
      some demoLeaf := by decide

/-- C2 amended: for the regex-based index.js variants, splitting the
newline-joined concatenation of N PEM blocks (nonempty, dash-free bodies)
returns exactly the N blocks in order, the first as the leaf and the
remaining N-1 as the chain entries: splitting is a left inverse of
concatenation for these variants. -/
theorem splitFullchain_left_inverse (b : List Char) (bs : List (List Char))
    (h : ∀ x ∈ b :: bs, x ≠ [] ∧ ∀ c ∈ x, c ≠ '-') :
    scanPem (joinBlocks (b :: bs)) = mkCertBlock b :: bs.map mkCertBlock ∧
    splitFullchainStr (String.mk (joinBlocks (b :: bs))) =
      some (String.mk (mkCertBlock b),
        String.intercalate "\n" ((bs.map mkCertBlock).map String.mk)) := by
  have hs := scanPem_joinBlocks (b :: bs) h
  constructor
  · simpa using hs
  · simp only [splitFullchainStr]
    have ht : (String.mk (joinBlocks (b :: bs))).toList = joinBlocks (b :: bs) := rfl
    rw [ht, hs]
    rfl

/-- C2 witness: a concrete three-block chain split into its leaf and two
chain entries. -/
theorem splitFullchain_left_inverse_witness :
    scanPem (joinBlocks [['A'], ['B'], ['C']]) =
      [mkCertBlock ['A'], mkCertBlock ['B'], mkCertBlock ['C']] ∧
    splitFullchainStr (String.mk (joinBlocks [['A'], ['B'], ['C']])) =
      some (String.mk (mkCertBlock ['A']),
        String.intercalate "\n" [String.mk (mkCertBlock ['B']), String.mk (mkCertBlock ['C'])]) := by
  have h := splitFullchain_left_inverse ['A'] [['B'], ['C']] (by decide)
  exact ⟨h.1, h.2⟩

/-! ## C3: install failure handling -/

/-- C3 counterexample: in the index.js UAPI variants an HTTP 200 response with
a failure payload (parsed status 0) raises an error and the run ends as a
hard failure with exit code 1, not as a completed run with manual
follow-up. -/
theorem installSslUapi_hard_failure_cex :
    installSslUapi 0 = Except.error "cPanel rejected the certificate" ∧
    exitCodeOf (installSslUapi 0) = 1 := ⟨rfl, rfl⟩

/-- C3 amended: in the part_000 variant, an HTTP 200 install response whose
body lacks the success marker is not reported as success: the installer
(without retrying authentication) produces the manual-fallback outcome naming
the three bundle file locations, and the surrounding run completes without a
hard failure (exit code 0); the index.js UAPI variants instead abort hard. -/
theorem install_manual_fallback (resp : HttpResponse) (cp kp chp : String)
    (certDir freshAK domKey cert : String) (fs : KeyFS)
    (h200 : resp.statusCode = 200)
    (hbody : stringIncludes resp.body "success" = false) :
    uploadCertificateViaCPanel resp cp kp chp = UploadOutcome.manualFallback cp kp chp ∧
    (part000Renew false true true true certDir freshAK domKey (Except.ok cert)
        (Except.ok ()) resp fs).1 = Except.ok () ∧
    RunEvent.logFallback ∈ (part000Renew false true true true certDir freshAK domKey
        (Except.ok cert) (Except.ok ()) resp fs).2.1 ∧
    exitCodeOf (part000Renew false true true true certDir freshAK domKey (Except.ok cert)
        (Except.ok ()) resp fs).1 = 0 := by
  have hcond : ∀ a b c : String,
      uploadCertificateViaCPanel resp a b c = UploadOutcome.manualFallback a b c := by
    intro a b c
    simp [uploadCertificateViaCPanel, h200, hbody]
  refine ⟨hcond cp kp chp, ?_, ?_, ?_⟩ <;>
    simp [part000Renew, hcond, exitCodeOf]

/-- C3 witness: a concrete 200 response with a failure body produces the
manual fallback and a completed run. -/
theorem install_manual_fallback_witness :
    uploadCertificateViaCPanel ⟨200, "operation failed"⟩ "c.crt" "p.key" "ch.crt" =
      UploadOutcome.manualFallback "c.crt" "p.key" "ch.crt" ∧
    (part000Renew false true true true "certs" "AK" "DK" (Except.ok "CERT")
        (Except.ok ()) ⟨200, "operation failed"⟩ []).1 = Except.ok () ∧
    RunEvent.logFallback ∈ (part000Renew false true true true "certs" "AK" "DK"
        (Except.ok "CERT") (Except.ok ()) ⟨200, "operation failed"⟩ []).2.1 ∧
    exitCodeOf (part000Renew false true true true "certs" "AK" "DK" (Except.ok "CERT")
        (Except.ok ()) ⟨200, "operation failed"⟩ []).1 = 0 :=
  install_manual_fallback ⟨200, "operation failed"⟩ "c.crt" "p.key" "ch.crt"
    "certs" "AK" "DK" "CERT" [] rfl (by decide)

/-! ## C4: load-or-create idempotence -/

/-- C4 counterexample: in part_000 dry-run mode with an empty backing store,
two calls return the two distinct freshly generated keys and nothing is
persisted, so load-or-create is not idempotent as claimed. -/
theorem loadOrCreateAccountKey_dryRun_cex :
    (loadOrCreateAccountKey true "certs" "KEY1" []).1 = "KEY1" ∧
    (loadOrCreateAccountKey true "certs" "KEY2"
        (loadOrCreateAccountKey true "certs" "KEY1" []).2).1 = "KEY2" ∧
    ("KEY1" : String) ≠ "KEY2" ∧
    (loadOrCreateAccountKey true "certs" "KEY1" []).2 = [] := by decide

/-- C4 amended: outside of part_000 dry-run mode (so in the always-persisting
index.js variants, and in part_000 with dryRun false, which coincides with
them), two calls return identical key material; an existing key is returned
with the store unmodified, and a fresh key is present in the store when the
call returns. -/
theorem loadOrCreateKey_idempotent (p f1 f2 certDir : String) (fs : KeyFS) :
    (loadOrCreateKey p f2 (loadOrCreateKey p f1 fs).2).1 = (loadOrCreateKey p f1 fs).1 ∧
    (∀ k0, fs.lookup p = some k0 → loadOrCreateKey p f1 fs = (k0, fs)) ∧
    (fs.lookup p = none →
      ((loadOrCreateKey p f1 fs).2).lookup p = some (loadOrCreateKey p f1 fs).1) ∧
    loadOrCreateAccountKey false certDir f1 fs =
      loadOrCreateKey (certDir ++ "/account.key") f1 fs := by
  refine ⟨?_, ?_, ?_, ?_⟩
  · cases h : fs.lookup p with
    | some k => simp [loadOrCreateKey, h]
    | none => simp [loadOrCreateKey, h, List.lookup]
  · intro k0 h
    simp [loadOrCreateKey, h]
  · intro h
    simp [loadOrCreateKey, h, List.lookup]
  · cases h : fs.lookup (certDir ++ "/account.key") <;>
      simp [loadOrCreateAccountKey, loadOrCreateKey, h]

/-- C4 witness: concrete double call from an empty store, a pre-populated
store case, and the agreement of the part_000 non-dry-run variant. -/
theorem loadOrCreateKey_idempotent_witness :
    (loadOrCreateKey "k" "B" (loadOrCreateKey "k" "A" []).2).1 =
      (loadOrCreateKey "k" "A" []).1 ∧
    loadOrCreateKey "k" "A" [("k", "OLD")] = ("OLD", [("k", "OLD")]) ∧
    ((loadOrCreateKey "k" "A" []).2).lookup "k" = some (loadOrCreateKey "k" "A" []).1 ∧
    loadOrCreateAccountKey false "d" "A" [] = loadOrCreateKey ("d" ++ "/account.key") "A" [] := by
  have h1 := loadOrCreateKey_idempotent "k" "A" "B" "d" ([] : KeyFS)
  have h2 := loadOrCreateKey_idempotent "k" "A" "B" "d" [("k", "OLD")]
  exact ⟨h1.1, h2.2.1 "OLD" (by decide), h1.2.2.1 (by decide), h1.2.2.2⟩

end LEAutomator

namespace LEAutomator

/-! ## C5: policy gate before keys and CA -/

/-- C5 counterexample: the index.js server variant renew() never consults any
renewal policy: on a concrete successful run it loads the account key and
places a CA order while no checkExpiry step occurs anywhere in its trace. -/
theorem serverRenew_no_policy_cex :
    RunEvent.checkExpiry ∉
      (serverRenew "example.org" "AK" "DK" (Except.ok demoFullchain) 1 []).2.1 ∧
    RunEvent.loadAccountKey ∈
      (serverRenew "example.org" "AK" "DK" (Except.ok demoFullchain) 1 []).2.1 ∧
    RunEvent.requestCert ∈
      (serverRenew "example.org" "AK" "DK" (Except.ok demoFullchain) 1 []).2.1 ∧
    (serverRenew "example.org" "AK" "DK" (Except.ok demoFullchain) 1 []).1 = Except.ok () := by
  refine ⟨by decide, by decide, by decide, rfl⟩

/-- C5 amended: in the part_000 orchestrator, a valid-config run that does not
need renewal and is not a dry run stops right after the expiry check with a
skipped outcome, an unchanged file system and no key or CA step; and in every
part_000 run, any key-loading or CA event is preceded by the configuration
validation and the expiry check as the first two steps. -/
theorem part000_policy_gate :
    (∀ certDir freshAK domKey issue login resp fs,
      part000Renew false true true false certDir freshAK domKey issue login resp fs =
        (Except.ok (), [RunEvent.validateConfig, RunEvent.checkExpiry, RunEvent.logSkipped],
         fs)) ∧
    (∀ dryRun pwSet domOk needsRen certDir freshAK domKey issue login resp fs,
      (RunEvent.loadAccountKey ∈ (part000Renew dryRun pwSet domOk needsRen certDir freshAK
          domKey issue login resp fs).2.1 ∨
       RunEvent.initAcmeClient ∈ (part000Renew dryRun pwSet domOk needsRen certDir freshAK
          domKey issue login resp fs).2.1 ∨
       RunEvent.requestCert ∈ (part000Renew dryRun pwSet domOk needsRen certDir freshAK
          domKey issue login resp fs).2.1) →
      ((part000Renew dryRun pwSet domOk needsRen certDir freshAK domKey issue login resp
          fs).2.1).take 2 = [RunEvent.validateConfig, RunEvent.checkExpiry]) := by
  constructor
  · intro certDir freshAK domKey issue login resp fs
    rfl
  · intro dryRun pwSet domOk needsRen certDir freshAK domKey issue login resp fs hmem
    rcases part000Renew_take2 dryRun pwSet domOk needsRen certDir freshAK domKey issue
        login resp fs with h | h
    · rw [h] at hmem
      rcases hmem with hm | hm | hm <;> simp at hm
    · exact h

/-- C5 witness: a concrete skipped run, and a concrete renewing run whose
trace starts with validation followed by the expiry check. -/
theorem part000_policy_gate_witness :
    part000Renew false true true false "certs" "AK" "DK" (Except.ok "C") (Except.ok ())
        ⟨200, "ok"⟩ [] =
      (Except.ok (), [RunEvent.validateConfig, RunEvent.checkExpiry, RunEvent.logSkipped],
       []) ∧
    ((part000Renew false true true true "certs" "AK" "DK" (Except.ok "C") (Except.ok ())
        ⟨200, "success"⟩ []).2.1).take 2 = [RunEvent.validateConfig, RunEvent.checkExpiry] :=
  ⟨part000_policy_gate.1 "certs" "AK" "DK" (Except.ok "C") (Except.ok ()) ⟨200, "ok"⟩ [],
   part000_policy_gate.2 false true true true "certs" "AK" "DK" (Except.ok "C")
     (Except.ok ()) ⟨200, "success"⟩ [] (Or.inl (by decide))⟩

/-! ## C6: partial state after an aborted install -/

/-- C6 counterexample: in the index.js CLI variant the issued fullchain lives
only in memory; after a concrete run whose install fails (exit code 1) the
disk holds exactly the two key files and no file equal to the fullchain or to
its leaf, so no certificate remains on disk for a later run. -/
theorem cli_cert_lost_cex :
    (cliMain false "example.org" "AK" "DK" (Except.ok demoFullchain) 0 []).1 = 1 ∧
    (cliMain false "example.org" "AK" "DK" (Except.ok demoFullchain) 0 []).2 =
      [("data/example.org.key", "DK"), ("data/account.key", "AK")] ∧
    (∀ e ∈ (cliMain false "example.org" "AK" "DK" (Except.ok demoFullchain) 0 []).2,
      e.2 ≠ demoFullchain ∧ e.2 ≠ demoLeaf) := by
  refine ⟨rfl, rfl, by decide⟩

/-- C6 amended: in the part_000 variant, a run that aborts during installation
(cPanel login failure) after issuance leaves certificate.crt and private.key
on disk with the issued contents, records the error, and re-raises it so the
process exits nonzero; in the index.js CLI variant the issued chain is never
written to disk. -/
theorem part000_abort_keeps_bundle (certDir freshAK domKey cert emsg : String)
    (resp : HttpResponse) (fs : KeyFS) :
    part000Renew false true true true certDir freshAK domKey (Except.ok cert)
        (Except.error emsg) resp fs =
      (Except.error emsg,
       [RunEvent.validateConfig, RunEvent.checkExpiry, RunEvent.ensureCertDir,
        RunEvent.loadAccountKey, RunEvent.initAcmeClient, RunEvent.requestCert,
        RunEvent.writeCertFiles, RunEvent.cpanelLogin],
       part000SaveCertFiles certDir cert domKey
         (loadOrCreateAccountKey false certDir freshAK fs).2) ∧
    ((part000Renew false true true true certDir freshAK domKey (Except.ok cert)
        (Except.error emsg) resp fs).2.2).lookup (certDir ++ "/certificate.crt") =
      some cert ∧
    ((part000Renew false true true true certDir freshAK domKey (Except.ok cert)
        (Except.error emsg) resp fs).2.2).lookup (certDir ++ "/private.key") =
      some domKey ∧
    exitCodeOf (part000Renew false true true true certDir freshAK domKey (Except.ok cert)
        (Except.error emsg) resp fs).1 = 1 := by
  refine ⟨rfl, ?_, ?_, rfl⟩
  · exact (saveCertFiles_lookup certDir cert domKey _).1
  · exact (saveCertFiles_lookup certDir cert domKey _).2

/-! ## C7: best-effort retraction -/

/-- C7 confirmed: retracting a never-published token is a no-op without error
in both cited variants (fs.rm with force, and the caught unlink failure); and
in the part_000 cleanup closure any retract failure, environmental or
missing-file, is only logged and never propagates. -/
theorem retract_idempotent_best_effort (failEnv : Option String) (fs : KeyFS) (tok : String)
    (habs : fs.lookup tok = none) :
    challengeRemove fs tok = (fs, none) ∧
    (handleHttpChallengeCleanup failEnv fs tok).fatal = none ∧
    (handleHttpChallengeCleanup failEnv fs tok).fs = fs ∧
    (∀ f2 fs2 t2, (handleHttpChallengeCleanup f2 fs2 t2).fatal = none) := by
  refine ⟨?_, ?_, ?_, ?_⟩
  · simp [challengeRemove, filter_ne_of_lookup_none habs]
  · cases failEnv <;> simp [handleHttpChallengeCleanup, habs]
  · cases failEnv <;> simp [handleHttpChallengeCleanup, habs]
  · intro f2 fs2 t2
    cases f2 with
    | some e => rfl
    | none =>
      by_cases h : (fs2.lookup t2).isSome <;> simp [handleHttpChallengeCleanup, h]

/-- C7 witness: retracting the never-published token b from a store holding
only a, under an environmental unlink failure. -/
theorem retract_idempotent_best_effort_witness :
    challengeRemove [("a", "x")] "b" = ([("a", "x")], none) ∧
    (handleHttpChallengeCleanup (some "EACCES") [("a", "x")] "b").fatal = none ∧
    (handleHttpChallengeCleanup (some "EACCES") [("a", "x")] "b").fs = [("a", "x")] ∧
    (∀ f2 fs2 t2, (handleHttpChallengeCleanup f2 fs2 t2).fatal = none) :=
  retract_idempotent_best_effort (some "EACCES") [("a", "x")] "b" (by decide)

/-! ## C8: no mutual exclusion on the trigger endpoint -/

/-- C8 code bug: the server handler decides from the request alone; every
authorized POST to the renew path is answered by starting a renewal run, so a
trigger arriving while a run is in flight starts a second concurrent run
instead of being rejected. -/
theorem serverHandler_starts_every_trigger (secret : String) :
    serverHandler secret
      { method := "POST", url := "/certificate/renew",
        authorization := some ("Bearer " ++ secret) } = ServerAction.startRenew := by
  simp [serverHandler]

/-! ## C9: CSR names -/

/-- C9 confirmed: for every configured domain, the CSR options of the
CLI/server/module variants name the domain as common name and exactly the
domain and its www subdomain as alternative names, so www is always
covered. -/
theorem csrOptions_names (d : String) :
    (csrOptions d).commonName = d ∧
    (csrOptions d).altNames = [d, "www." ++ d] ∧
    "www." ++ d ∈ (csrOptions d).altNames :=
  ⟨rfl, rfl, by simp [csrOptions]⟩

/-! ## C10: install parameters in the URL -/

/-- C10 confirmed: the UAPI install request carries no body; its URL is the
install endpoint with the urlencoded domain, cert, key and cabundle
parameters in the query string, and decoding the encoded key parameter
recovers exactly the private-key bytes (ASCII inputs, which PEM data is). -/
theorem installSsl_key_in_query (host d cert k cb user token : String)
    (hk : ∀ ch ∈ k.toList, ch.toNat < 128) :
    (installSslRequest host d cert k cb user token).body = none ∧
    (installSslRequest host d cert k cb user token).url =
      "https://" ++ (host ++ (":2083/execute/SSL/install_ssl?" ++
        ("domain=" ++ (urlencodeStr d ++ ("&" ++ ("cert=" ++ (urlencodeStr cert ++
          ("&" ++ ("key=" ++ (urlencodeStr k ++ ("&" ++
            ("cabundle=" ++ urlencodeStr cb)))))))))))) ∧
    percentDecode (urlencodeStr k).toList = k.toList := by
  refine ⟨rfl, ?_, ?_⟩
  · simp only [installSslRequest, serializeParams]
    have henc : ∀ key : String, key ∈ (["domain", "cert", "key", "cabundle"] : List String) →
        urlencodeStr key = key := by decide
    rw [henc "domain" (by simp), henc "cert" (by simp), henc "key" (by simp),
      henc "cabundle" (by simp)]
    simp [String.append_assoc]
  · have ht : (urlencodeStr k).toList = urlencode k.toList := rfl
    rw [ht]
    exact percentDecode_urlencode k.toList hk

/-- C10 witness: a concrete bundle with a key containing a space and a plus
sign round-trips through the query-string encoding. -/
theorem installSsl_key_in_query_witness :
    (installSslRequest "h.example" "example.org" "CERT" "K +Y" "CA" "user" "tok").body =
      none ∧
    (installSslRequest "h.example" "example.org" "CERT" "K +Y" "CA" "user" "tok").url =
      "https://" ++ ("h.example" ++ (":2083/execute/SSL/install_ssl?" ++
        ("domain=" ++ (urlencodeStr "example.org" ++ ("&" ++ ("cert=" ++
          (urlencodeStr "CERT" ++ ("&" ++ ("key=" ++ (urlencodeStr "K +Y" ++ ("&" ++
            ("cabundle=" ++ urlencodeStr "CA")))))))))))) ∧
    percentDecode (urlencodeStr "K +Y").toList = ("K +Y" : String).toList :=
  installSsl_key_in_query "h.example" "example.org" "CERT" "K +Y" "CA" "user" "tok"
    (by decide)

end LEAutomator
